import Mathlib

/-!
Verification of the `ElitePlus` USB blood-pressure-meter protocol driver
(`omron_elite_plus.py`).

Byte strings are modelled as `List Nat` (each element a byte value), the
opaque USB transport as an oracle, and Python exceptions as explicit
`Except PyError` results.  Each definition is a direct transcription of the
corresponding Python method of the `ElitePlus` class.
-/

namespace ElitePlus

/-- Python exception kinds that the driver code can raise. -/
inductive PyError where
  | typeError
  | valueError
  | indexError
  | assertionError
deriving DecidableEq

/-- A wall-clock timestamp, mirroring a Python `datetime` value. -/
structure DateTime where
  year : Nat
  month : Nat
  day : Nat
  hour : Nat
  minute : Nat
  second : Nat
deriving DecidableEq

/-- Gregorian leap-year test, as used by Python's `datetime` module. -/
def isLeapYear (y : Nat) : Bool :=
  (y % 4 == 0 && y % 100 != 0) || (y % 400 == 0)

/-- Number of days in a month of a given year (Python `calendar` rules). -/
def daysInMonth (y m : Nat) : Nat :=
  if m = 2 then (if isLeapYear y then 29 else 28)
  else if m = 4 ∨ m = 6 ∨ m = 9 ∨ m = 11 then 30
  else 31

/-- Validity check performed by the Python `datetime` constructor. -/
def datetimeValid (dt : DateTime) : Bool :=
  1 ≤ dt.year && dt.year ≤ 9999 &&
  1 ≤ dt.month && dt.month ≤ 12 &&
  1 ≤ dt.day && dt.day ≤ daysInMonth dt.year dt.month &&
  dt.hour ≤ 23 && dt.minute ≤ 59 && dt.second ≤ 59

/-- The Python `datetime(...)` constructor: validates its fields and raises
`ValueError` when they do not form a real calendar date. -/
def mkDatetime (dt : DateTime) : Except PyError DateTime :=
  if datetimeValid dt then .ok dt else .error .valueError

/-- Days of the proleptic Gregorian calendar strictly before January 1 of
year `y` (as in CPython's `datetime` ordinal computation). -/
def daysBeforeYear (y : Nat) : Nat :=
  (y - 1) * 365 + (y - 1) / 4 - (y - 1) / 100 + (y - 1) / 400

/-- Days of year `y` strictly before the first day of month `m`. -/
def daysBeforeMonth (y : Nat) : Nat → Nat
  | 0 => 0
  | 1 => 0
  | m + 2 => daysBeforeMonth y (m + 1) + daysInMonth y (m + 1)

/-- Rata-die ordinal of a date (day 1 is 0001-01-01), as
`datetime.toordinal`. -/
def toOrdinal (dt : DateTime) : Nat :=
  daysBeforeYear dt.year + daysBeforeMonth dt.year dt.month + dt.day

/-- A timestamp as a whole number of seconds on the proleptic Gregorian
time line; differences of `toSecs` values agree with Python `datetime`
subtraction at whole-second resolution. -/
def toSecs (dt : DateTime) : Int :=
  (((toOrdinal dt - 1) * 86400 + dt.hour * 3600 + dt.minute * 60 + dt.second : Nat) : Int)

/-- The command bytes of `b"GCL00"`. -/
def GCL00 : List Nat := [71, 67, 76, 48, 48]

/-- The command bytes of `b"CNT00"`. -/
def CNT00 : List Nat := [67, 78, 84, 48, 48]

/-- The command bytes of `b"END00"`. -/
def END00 : List Nat := [69, 78, 68, 48, 48]

/-- Prepending the length byte: `bytes([len(data), *data])`. -/
def encode (data : List Nat) : List Nat := data.length :: data

/-- `ElitePlus.write`: joins its arguments, asserts the joined length is
below 256, and sends a single packet consisting of the length byte followed
by the data.  The packet handed to the transport is returned. -/
def write (parts : List (List Nat)) : Except PyError (List Nat) :=
  let data := parts.flatten
  if data.length < 256 then .ok (encode data) else .error .assertionError

/-- The payload fragment `chunk[1 : chunk[0] + 1]` carried by one transport
chunk. -/
def frag : List Nat → List Nat
  | [] => []
  | b :: t => t.take b

/-- The final step of `ElitePlus.read`: checks the `b"OK"` marker and
strips it together with the trailing byte (`data[2:-1]`); yields `none`
(Python `None`) when the marker is absent. -/
def okCheck (data : List Nat) : Option (List Nat) :=
  if data.take 2 = [79, 75] then some ((data.drop 2).dropLast) else none

/-- The reassembly loop of `ElitePlus.read` over the remaining transport
chunks, carrying the accumulator `acc`.  The outer `none` means the chunk
sequence was exhausted while the loop still wanted data (the real code
would block on the transport); `some none` is Python's `None` result. -/
def readAux (acc : List Nat) : List (List Nat) → Option (Option (List Nat))
  | [] => none
  | [] :: _ => some none
  | (b :: t) :: rest =>
    if b < 1 ∨ 7 < b then some none
    else if b < 7 then some (okCheck (acc ++ t.take b))
    else readAux (acc ++ t.take b) rest

/-- `ElitePlus.read` applied to the sequence of chunks the transport will
deliver. -/
def read (chunks : List (List Nat)) : Option (Option (List Nat)) :=
  readAux [] chunks

/-!
Command channel.  A responsive device is modelled as an oracle mapping the
command bytes handed to `self.command(...)` to the `Option` payload that
the subsequent `self.read()` produces (`none` is Python `None`,
"no response").  The device memory is not changed by reads, so the oracle
is a pure function.
-/

/-- The timestamp fields decoded from a payload: byte 1 is the year offset
from 2000, bytes 2..6 are month, day, hour, minute, second (missing
trailing fields default to 0, as the defaulted `datetime` arguments do). -/
def payloadFields (p : List Nat) : DateTime :=
  ⟨2000 + p.getD 1 0, p.getD 2 0, p.getD 3 0, p.getD 4 0, p.getD 5 0, p.getD 6 0⟩

/-- `ElitePlus.clock`: issues `GCL00` and decodes payload bytes 1..6.
Subscripting an absent (`None`) payload raises `TypeError`; unpacking
fewer than six values raises `ValueError`; an invalid calendar date makes
the `datetime` constructor raise `ValueError`.  All of these propagate. -/
def clock (dev : List Nat → Option (List Nat)) : Except PyError DateTime :=
  match dev GCL00 with
  | none => .error .typeError
  | some p =>
    if p.length < 7 then .error .valueError
    else mkDatetime (payloadFields p)

/-- `ElitePlus.count`: issues `CNT00` and returns payload byte 2.
Subscripting an absent payload raises `TypeError`; a too-short payload
raises `IndexError`. -/
def count (dev : List Nat → Option (List Nat)) : Except PyError Nat :=
  match dev CNT00 with
  | none => .error .typeError
  | some p => if p.length < 3 then .error .indexError else .ok (p.getD 2 0)

/-- The `ElitePlus.Measurement` dataclass; `time` is the (optionally
corrected) timestamp in seconds, or `none` when the device reported an
invalid date. -/
structure Measurement where
  time : Option Int
  systolic : Nat
  diastolic : Nat
  pulse : Nat
deriving DecidableEq

instance : Inhabited Measurement := ⟨⟨none, 0, 0, 0⟩⟩

/-- The record-fetch command for index `i`:
`b"MES\x00\x00" + bytes([index]) * 2`. -/
def mesCommand (i : Nat) : List Nat := [77, 69, 83, 0, 0] ++ [i, i]

/-- The `try: datetime(2000 + record[1], *record[2:7]) except ValueError`
step of `ElitePlus.measurements`, given the record payload: `some` seconds
for a valid date, `none` when `ValueError` was caught. -/
def recordTime (r : List Nat) : Option Int :=
  match mkDatetime (payloadFields r) with
  | .error _ => none
  | .ok dt => some (toSecs dt)

/-- The `if correct_time and time: record.time += timedelta(seconds=offset)`
step: the offset is `some o` exactly when `correct_time` holds. -/
def correctedTime (offset : Option Int) (t : Option Int) : Option Int :=
  match offset, t with
  | some o, some x => some (x + o)
  | _, _ => t

/-- The measurement built from a record payload `r` (with the offset
applied when enabled): time from bytes 1..6, numeric fields from bytes
9..11. -/
def measOf (offset : Option Int) (r : List Nat) : Measurement :=
  ⟨correctedTime offset (recordTime r), r.getD 9 0, r.getD 10 0, r.getD 11 0⟩

/-- Decoding one fetched record inside `ElitePlus.measurements`.  A `None`
payload raises `TypeError` at `record[1]`; a payload of fewer than 2 bytes
raises `IndexError` there; one of fewer than 4 bytes leaves `datetime`
without its required arguments (`TypeError`); one of fewer than 12 bytes
makes the unpacking `record[9:12]` raise `ValueError`.  Only the
`ValueError` of an invalid calendar date is caught (leaving `time = None`). -/
def decodeRecord (offset : Option Int) (rec : Option (List Nat)) :
    Except PyError Measurement :=
  match rec with
  | none => .error .typeError
  | some r =>
    if r.length < 2 then .error .indexError
    else if r.length < 4 then .error .typeError
    else if r.length < 12 then .error .valueError
    else .ok (measOf offset r)

/-- One observable run of the `measurements` generator: the command bytes
issued (in order), the measurements yielded (in order), and the exception
that aborted the iteration, if any. -/
structure MeasTrace where
  cmds : List (List Nat)
  yields : List Measurement
  err : Option PyError
deriving DecidableEq

/-- The `for index in range(self.count())` loop of `ElitePlus.measurements`
over the remaining indices: each step issues one record-fetch command and
either yields the decoded measurement or ends the generator with the
propagating exception. -/
def recLoop (dev : List Nat → Option (List Nat)) (offset : Option Int) :
    List Nat → MeasTrace
  | [] => ⟨[], [], none⟩
  | i :: is =>
    match decodeRecord offset (dev (mesCommand i)) with
    | .error e => ⟨[mesCommand i], [], some e⟩
    | .ok m =>
      let t := recLoop dev offset is
      ⟨mesCommand i :: t.cmds, m :: t.yields, t.err⟩

/-- `ElitePlus.measurements(correct_time)` run to completion against the
device oracle, with `now` the host clock reading (`datetime.now()`) in
seconds: computes the offset once (when enabled) from `GCL00`, reads the
record count from `CNT00`, then fetches and decodes each record. -/
def measurementsTrace (dev : List Nat → Option (List Nat))
    (correctTime : Bool) (now : Int) : MeasTrace :=
  if correctTime then
    match clock dev with
    | .error e => ⟨[GCL00], [], some e⟩
    | .ok c =>
      match count dev with
      | .error e => ⟨[GCL00, CNT00], [], some e⟩
      | .ok n =>
        let t := recLoop dev (some (now - toSecs c)) (List.range n)
        ⟨GCL00 :: CNT00 :: t.cmds, t.yields, t.err⟩
  else
    match count dev with
    | .error e => ⟨[CNT00], [], some e⟩
    | .ok n =>
      let t := recLoop dev none (List.range n)
      ⟨CNT00 :: t.cmds, t.yields, t.err⟩

/-!
Handshake controller.  The session records the state of the `ElitePlus`
object that the handshake touches: the `active` attribute (`none` while the
attribute does not exist), the packets written to the transport, and the
number of read attempts made.  One read attempt either raises a
`usb.core.USBError` or returns an `Option` payload.
-/

/-- The mutable session state of an `ElitePlus` object. -/
structure Session where
  active : Option Bool
  writes : List (List Nat)
  readCount : Nat
deriving DecidableEq

/-- The state established by `ElitePlus.__init__` (which never assigns
`self.active`). -/
def initSession : Session := ⟨none, [], 0⟩

/-- The outcome of one `self.read()` attempt: a raised `usb.core.USBError`,
or a returned value (`none` is Python `None`). -/
inductive ReadOutcome where
  | err
  | ok (r : Option (List Nat))
deriving DecidableEq

/-- Python truthiness of a `read()` result: `None` and empty bytes are
falsy, a non-empty payload is truthy. -/
def truthy : ReadOutcome → Bool
  | .ok (some (_ :: _)) => true
  | _ => false

/-- The packet sent by `self.write(7 * b"\x00")`. -/
def zeroPacket : List Nat := encode (List.replicate 7 0)

/-- The two `self.write(7 * b"\x00")` calls of one wake cycle. -/
def sendZeros (s : Session) : Session :=
  { s with writes := s.writes ++ [zeroPacket, zeroPacket] }

/-- One `self.read()` attempt, as seen by the session state. -/
def bumpRead (s : Session) : Session := { s with readCount := s.readCount + 1 }

/-- The `for _ in range(10)` retry loop of `ElitePlus.wakeup`: each cycle
writes the zero packet twice, then attempts a read whose `USBError` is
swallowed; a truthy response sets `self.active = True` and breaks. -/
def wakeupLoop (reads : Nat → ReadOutcome) : Nat → Nat → Session → Except PyError Session
  | _, 0, s => .ok s
  | i, k + 1, s =>
    let s1 := bumpRead (sendZeros s)
    match reads i with
    | .err => wakeupLoop reads (i + 1) k s1
    | .ok none => wakeupLoop reads (i + 1) k s1
    | .ok (some []) => wakeupLoop reads (i + 1) k s1
    | .ok (some (_ :: _)) => .ok { s1 with active := some true }

/-- `ElitePlus.wakeup`: a drain read whose `USBError` is swallowed and
whose result is discarded, then up to 10 wake cycles. -/
def wakeup (drain : ReadOutcome) (reads : Nat → ReadOutcome) (s : Session) :
    Except PyError Session :=
  wakeupLoop reads 0 10 (bumpRead s)

/-- `ElitePlus.shutdown`: sets `self.active = False` and writes the
`END00` command without reading any response. -/
def shutdown (s : Session) : Session :=
  { s with active := some false, writes := s.writes ++ [encode END00] }

/-- The `with ElitePlus() as meter:` block: `__enter__` performs `wakeup`,
the body runs (returning its value or the exception it raised), and
`__exit__` performs `shutdown` on either exit path. -/
def withSession (drain : ReadOutcome) (reads : Nat → ReadOutcome)
    (body : Session → Session × Except PyError (List Measurement)) (s : Session) :
    Session × Except PyError (List Measurement) :=
  match wakeup drain reads s with
  | .error e => (s, .error e)
  | .ok s1 =>
    let p := body s1
    (shutdown p.1, p.2)

/-- A sample device oracle used by concrete witnesses: three stored
records (index 1 carrying an invalid month 13), a clock of
2024-03-15 10:30:00, and a record count of 3. -/
def devW : List Nat → Option (List Nat) := fun cmd =>
  if cmd = CNT00 then some [0, 0, 3]
  else if cmd = GCL00 then some [0, 24, 3, 15, 10, 30, 0]
  else if cmd = mesCommand 1 then some [0, 24, 13, 15, 11, 0, 0, 0, 0, 130, 85, 65]
  else some [0, 24, 3, 15, 11, 0, 0, 0, 0, 120, 80, 60]

/-!
Frame codec lemmas and claims.
-/

lemma readAux_all7 (cs : List (List Nat)) : ∀ (acc : List Nat) (rest : List (List Nat)),
    (∀ c ∈ cs, c.head? = some 7) →
    readAux acc (cs ++ rest) = readAux (acc ++ (cs.map frag).flatten) rest := by
  induction cs with
  | nil => intro acc rest _; simp
  | cons c cs ih =>
    intro acc rest h
    have hc := h c (List.mem_cons_self c cs)
    cases c with
    | nil => simp at hc
    | cons b t =>
      have hb : b = 7 := by simpa using hc
      subst hb
      have hstep : readAux acc ((7 :: t) :: (cs ++ rest)) =
          readAux (acc ++ t.take 7) (cs ++ rest) := by
        simp [readAux]
      rw [List.cons_append, hstep,
        ih (acc ++ t.take 7) rest (fun c hmem => h c (List.mem_cons_of_mem _ hmem))]
      simp [frag, List.append_assoc]

/-- C1: reassembly in `ElitePlus.read`.  For chunks each carrying leading
length byte 7 except a final chunk with leading byte `k ∈ [1, 6]`, `read`
concatenates the fragments `chunk[1 : chunk[0] + 1]` in order, stops at the
final chunk, and returns the accumulator stripped of the leading `b"OK"`
marker and the trailing byte — or `None` when the accumulator does not
begin with `b"OK"`.  An empty chunk, or one with leading byte 0 or above 7,
encountered during reassembly makes `read` return `None`. -/
theorem claim_C1 :
    (∀ (cs : List (List Nat)) (k : Nat) (t : List Nat),
       (∀ c ∈ cs, c.head? = some 7) → 1 ≤ k → k ≤ 6 →
       ∀ data, data = ((cs ++ [k :: t]).map frag).flatten →
       read (cs ++ [k :: t]) =
         some (if data.take 2 = [79, 75]
               then some ((data.drop 2).dropLast) else none)) ∧
    (∀ (pre : List (List Nat)) (bad : List Nat) (rest : List (List Nat)),
       (∀ c ∈ pre, c.head? = some 7) →
       (bad = [] ∨ bad.headD 0 = 0 ∨ 7 < bad.headD 0) →
       read (pre ++ bad :: rest) = some none) := by
  constructor
  · intro cs k t hcs hk1 hk6 data hdata
    subst hdata
    unfold read
    rw [readAux_all7 cs [] [k :: t] hcs]
    simp only [List.nil_append]
    have hfin : readAux ((cs.map frag).flatten) [k :: t] =
        some (okCheck ((cs.map frag).flatten ++ t.take k)) := by
      simp only [readAux]
      rw [if_neg (by omega), if_pos (by omega)]
    rw [hfin]
    have hjoin : (cs.map frag).flatten ++ t.take k =
        ((cs ++ [k :: t]).map frag).flatten := by
      simp [frag]
    rw [hjoin, okCheck]
  · intro pre bad rest hpre hbad
    unfold read
    rw [readAux_all7 pre [] (bad :: rest) hpre]
    cases bad with
    | nil => simp [readAux]
    | cons b t =>
      rcases hbad with h | h | h
      · exact absurd h (by simp)
      · have hb : b = 0 := by simpa using h
        subst hb
        simp [readAux]
      · have hb : 7 < b := by simpa using h
        simp only [readAux]
        rw [if_pos (Or.inr hb)]

/-- Witness for C1: a two-chunk response carrying `b"OK"` plus payload, and
a malformed chunk with leading byte 8. -/
theorem claim_C1_witness :
    read [[7, 79, 75, 1, 2, 3, 4, 5], [3, 9, 9, 0]] = some (some [1, 2, 3, 4, 5, 9, 9]) ∧
    read [[8, 1]] = some none := by
  constructor
  · have h := claim_C1.1 [[7, 79, 75, 1, 2, 3, 4, 5]] 3 [9, 9, 0]
      (by decide) (by decide) (by decide)
      ((([[7, 79, 75, 1, 2, 3, 4, 5]] ++ [3 :: [9, 9, 0]]).map frag).flatten) rfl
    rw [show ([[7, 79, 75, 1, 2, 3, 4, 5]] ++ [3 :: [9, 9, 0]]) =
        [[7, 79, 75, 1, 2, 3, 4, 5], [3, 9, 9, 0]] from rfl] at h
    rw [h]
    decide
  · exact claim_C1.2 [] [8, 1] [] (by simp) (by simp)

/-- C2: `ElitePlus.write` joins its arguments into `C`; for
`len(C) < 256` it sends exactly the `len(C) + 1` bytes `[len(C)] + C`,
and for `len(C) ≥ 256` the assertion fails and nothing is written. -/
theorem claim_C2 : ∀ (parts : List (List Nat)),
    (parts.flatten.length < 256 →
       write parts = .ok (parts.flatten.length :: parts.flatten) ∧
       (parts.flatten.length :: parts.flatten).length = parts.flatten.length + 1) ∧
    (256 ≤ parts.flatten.length → write parts = .error .assertionError) := by
  intro parts
  constructor
  · intro h
    constructor
    · unfold write encode
      rw [if_pos h]
    · simp
  · intro h
    unfold write
    rw [if_neg (by omega)]

/-- Witness for C2: a short command is length-prefixed; a 256-byte command
trips the assertion. -/
theorem claim_C2_witness :
    write [[77, 69, 83], [4, 4]] = .ok [5, 77, 69, 83, 4, 4] ∧
    write [List.replicate 256 0] = .error .assertionError := by
  constructor
  · exact ((claim_C2 [[77, 69, 83], [4, 4]]).1 (by decide)).1
  · exact (claim_C2 [List.replicate 256 0]).2
      (by rw [List.flatten_cons, List.flatten_nil, List.append_nil, List.length_replicate])

/-!
Measurement-decoder lemmas and claims.
-/

lemma decodeRecord_eq (offset : Option Int) (r : List Nat) (h : 12 ≤ r.length) :
    decodeRecord offset (some r) = .ok (measOf offset r) := by
  simp only [decodeRecord]
  rw [if_neg (by omega), if_neg (by omega), if_neg (by omega)]

lemma count_eq (dev : List Nat → Option (List Nat)) (cp : List Nat)
    (hcnt : dev CNT00 = some cp) (hlen : 3 ≤ cp.length) :
    count dev = .ok (cp.getD 2 0) := by
  simp only [count, hcnt]
  rw [if_neg (by omega)]

lemma recLoop_spec (dev : List Nat → Option (List Nat)) (offset : Option Int) :
    ∀ (is : List Nat),
    (∀ i ∈ is, ∃ r, dev (mesCommand i) = some r ∧ 12 ≤ r.length) →
    recLoop dev offset is =
      ⟨is.map mesCommand, is.map (fun i => measOf offset ((dev (mesCommand i)).getD [])),
       none⟩ := by
  intro is
  induction is with
  | nil => intro _; rfl
  | cons i is ih =>
    intro h
    obtain ⟨r, hr, hlen⟩ := h i (List.mem_cons_self i is)
    have hd : decodeRecord offset (dev (mesCommand i)) = .ok (measOf offset r) := by
      rw [hr]; exact decodeRecord_eq offset r hlen
    simp only [recLoop, hd, ih (fun j hj => h j (List.mem_cons_of_mem _ hj))]
    simp [hr]

lemma measurementsTrace_ok (dev : List Nat → Option (List Nat)) (ct : Bool) (now : Int)
    (N : Nat) (cp : List Nat) (c : DateTime) (off : Option Int)
    (hcnt : dev CNT00 = some cp) (hlen : 3 ≤ cp.length) (hN : cp.getD 2 0 = N)
    (hclk : ct = true → clock dev = .ok c)
    (hoff : off = if ct then some (now - toSecs c) else none)
    (hrec : ∀ i, i < N → ∃ r, dev (mesCommand i) = some r ∧ 12 ≤ r.length) :
    measurementsTrace dev ct now =
      ⟨(if ct then [GCL00, CNT00] else [CNT00]) ++ (List.range N).map mesCommand,
       (List.range N).map (fun i => measOf off ((dev (mesCommand i)).getD [])),
       none⟩ := by
  have hcount : count dev = .ok N := by rw [count_eq dev cp hcnt hlen, hN]
  have hloop : ∀ o, recLoop dev o (List.range N) =
      ⟨(List.range N).map mesCommand,
       (List.range N).map (fun i => measOf o ((dev (mesCommand i)).getD [])), none⟩ :=
    fun o => recLoop_spec dev o (List.range N)
      (fun i hi => hrec i (List.mem_range.mp hi))
  cases ct with
  | false =>
    simp only [if_neg (Bool.false_ne_true)] at hoff
    subst hoff
    simp only [measurementsTrace, if_neg (Bool.false_ne_true), hcount, hloop]
    rfl
  | true =>
    simp only [if_pos rfl] at hoff
    subst hoff
    simp only [measurementsTrace, if_pos rfl, hclk rfl, hcount, hloop]
    rfl

lemma yields_getD (dev : List Nat → Option (List Nat)) (off : Option Int)
    (N i : Nat) (hi : i < N) :
    ((List.range N).map (fun j => measOf off ((dev (mesCommand j)).getD []))).getD i default =
      measOf off ((dev (mesCommand i)).getD []) := by
  rw [List.getD_eq_getElem?_getD, List.getElem?_map, List.getElem?_range hi]
  rfl

/-- C3: for a device reporting `N` stored records, fully iterating
`measurements()` issues, after the optional `GCL00` and the `CNT00`, exactly
the `N` record-fetch commands `b"MES\x00\x00" + bytes([i]) * 2` for
`i = 0, ..., N - 1` in order, and yields exactly `N` measurements. -/
theorem claim_C3 : ∀ (dev : List Nat → Option (List Nat)) (ct : Bool) (now : Int)
    (N : Nat) (cp : List Nat),
    dev CNT00 = some cp → 3 ≤ cp.length → cp.getD 2 0 = N → N < 256 →
    (ct = true → ∃ c, clock dev = .ok c) →
    (∀ i, i < N → ∃ r, dev (mesCommand i) = some r ∧ 12 ≤ r.length) →
    (measurementsTrace dev ct now).cmds =
        (if ct then [GCL00] else []) ++ CNT00 :: (List.range N).map mesCommand ∧
    (measurementsTrace dev ct now).yields.length = N ∧
    (measurementsTrace dev ct now).err = none ∧
    ∀ i, mesCommand i = [77, 69, 83, 0, 0] ++ [i, i] := by
  intro dev ct now N cp hcnt hlen hN _ hclk hrec
  have hc : ∃ c : DateTime, ct = true → clock dev = .ok c := by
    cases ct with
    | false => exact ⟨⟨0, 0, 0, 0, 0, 0⟩, fun h => absurd h (by simp)⟩
    | true => obtain ⟨c, hc⟩ := hclk rfl; exact ⟨c, fun _ => hc⟩
  obtain ⟨c, hc⟩ := hc
  rw [measurementsTrace_ok dev ct now N cp c (if ct then some (now - toSecs c) else none)
    hcnt hlen hN hc rfl hrec]
  refine ⟨?_, by simp, rfl, fun i => rfl⟩
  cases ct <;> simp

/-- Witness for C3: the sample device reports 3 records; iterating issues
`GCL00`, `CNT00`, then the three `MES` fetches for indices 0, 1, 2, and
yields 3 measurements. -/
theorem claim_C3_witness :
    (measurementsTrace devW true 0).cmds =
        [GCL00] ++ CNT00 :: [mesCommand 0, mesCommand 1, mesCommand 2] ∧
    (measurementsTrace devW true 0).yields.length = 3 := by
  have h := claim_C3 devW true 0 3 [0, 0, 3] (by decide) (by decide) (by decide)
    (by decide) (fun _ => ⟨⟨2024, 3, 15, 10, 30, 0⟩, rfl⟩)
    (fun i hi => by
      interval_cases i
      · exact ⟨[0, 24, 3, 15, 11, 0, 0, 0, 0, 120, 80, 60], by decide, by decide⟩
      · exact ⟨[0, 24, 13, 15, 11, 0, 0, 0, 0, 130, 85, 65], by decide, by decide⟩
      · exact ⟨[0, 24, 3, 15, 11, 0, 0, 0, 0, 120, 80, 60], by decide, by decide⟩)
  refine ⟨?_, h.2.1⟩
  rw [h.1]
  rfl

/-- C4: with `correct_time`, the offset is the host reading `now` minus the
device clock in seconds, computed once from `GCL00` before iterating, and
every record with a valid device-local timestamp is yielded with that
timestamp plus the offset; a record without a valid timestamp gets no
correction. -/
theorem claim_C4 : ∀ (dev : List Nat → Option (List Nat)) (now : Int)
    (N : Nat) (cp : List Nat) (c : DateTime),
    dev CNT00 = some cp → 3 ≤ cp.length → cp.getD 2 0 = N →
    clock dev = .ok c →
    (∀ i, i < N → ∃ r, dev (mesCommand i) = some r ∧ 12 ≤ r.length) →
    (measurementsTrace dev true now).err = none ∧
    (measurementsTrace dev true now).yields.length = N ∧
    ∀ i, i < N → ∀ r, dev (mesCommand i) = some r →
      (datetimeValid (payloadFields r) = true →
         ((measurementsTrace dev true now).yields.getD i default).time =
           some (toSecs (payloadFields r) + (now - toSecs c))) ∧
      (datetimeValid (payloadFields r) = false →
         ((measurementsTrace dev true now).yields.getD i default).time = none) := by
  intro dev now N cp c hcnt hlen hN hclk hrec
  rw [measurementsTrace_ok dev true now N cp c (some (now - toSecs c))
    hcnt hlen hN (fun _ => hclk) rfl hrec]
  refine ⟨rfl, by simp, ?_⟩
  intro i hi r hr
  rw [yields_getD dev (some (now - toSecs c)) N i hi, hr]
  constructor
  · intro hv
    simp [measOf, correctedTime, recordTime, mkDatetime, hv]
  · intro hv
    simp [measOf, correctedTime, recordTime, mkDatetime, hv]

/-- Witness for C4: record 0 of the sample device (2024-03-15 11:00:00) is
corrected by `now = 0` minus the device clock (2024-03-15 10:30:00). -/
theorem claim_C4_witness :
    ((measurementsTrace devW true 0).yields.getD 0 default).time =
      some (toSecs ⟨2024, 3, 15, 11, 0, 0⟩ + (0 - toSecs ⟨2024, 3, 15, 10, 30, 0⟩)) := by
  have h := claim_C4 devW 0 3 [0, 0, 3] ⟨2024, 3, 15, 10, 30, 0⟩
    (by decide) (by decide) (by decide) rfl
    (fun i hi => by
      interval_cases i
      · exact ⟨[0, 24, 3, 15, 11, 0, 0, 0, 0, 120, 80, 60], by decide, by decide⟩
      · exact ⟨[0, 24, 13, 15, 11, 0, 0, 0, 0, 130, 85, 65], by decide, by decide⟩
      · exact ⟨[0, 24, 3, 15, 11, 0, 0, 0, 0, 120, 80, 60], by decide, by decide⟩)
  have h0 := (h.2.2 0 (by omega) [0, 24, 3, 15, 11, 0, 0, 0, 0, 120, 80, 60]
    (by decide)).1 (by decide)
  rw [h0]
  rfl

/-- C5: a record whose date fields (byte 1 as year offset, bytes 2..6 as
month, day, hour, minute, second) form an invalid calendar date is still
yielded: its time is absent, no offset correction is applied, no exception
propagates, and systolic, diastolic and pulse are taken from bytes 9..11. -/
theorem claim_C5 :
    (∀ (offset : Option Int) (r : List Nat), 12 ≤ r.length →
       datetimeValid (payloadFields r) = false →
       decodeRecord offset (some r) = .ok ⟨none, r.getD 9 0, r.getD 10 0, r.getD 11 0⟩) ∧
    (∀ (dev : List Nat → Option (List Nat)) (ct : Bool) (now : Int)
       (N : Nat) (cp : List Nat) (c : DateTime),
       dev CNT00 = some cp → 3 ≤ cp.length → cp.getD 2 0 = N →
       (ct = true → clock dev = .ok c) →
       (∀ i, i < N → ∃ r, dev (mesCommand i) = some r ∧ 12 ≤ r.length) →
       (measurementsTrace dev ct now).err = none ∧
       (measurementsTrace dev ct now).yields.length = N ∧
       ∀ i, i < N → ∀ r, dev (mesCommand i) = some r →
         datetimeValid (payloadFields r) = false →
         (measurementsTrace dev ct now).yields.getD i default =
           ⟨none, r.getD 9 0, r.getD 10 0, r.getD 11 0⟩) := by
  constructor
  · intro offset r hlen hv
    rw [decodeRecord_eq offset r hlen]
    simp [measOf, correctedTime, recordTime, mkDatetime, hv]
  · intro dev ct now N cp c hcnt hlen hN hclk hrec
    rw [measurementsTrace_ok dev ct now N cp c (if ct then some (now - toSecs c) else none)
      hcnt hlen hN hclk rfl hrec]
    refine ⟨rfl, by simp, ?_⟩
    intro i hi r hr hv
    rw [yields_getD dev _ N i hi, hr]
    simp [measOf, correctedTime, recordTime, mkDatetime, hv]

/-- Witness for C5: record 1 of the sample device carries month 13; it is
yielded with no time and the numeric fields 130/85/65. -/
theorem claim_C5_witness :
    decodeRecord (some 5) (some [0, 24, 13, 15, 11, 0, 0, 0, 0, 130, 85, 65]) =
        .ok ⟨none, 130, 85, 65⟩ ∧
    (measurementsTrace devW true 0).yields.getD 1 default = ⟨none, 130, 85, 65⟩ := by
  constructor
  · exact claim_C5.1 (some 5) [0, 24, 13, 15, 11, 0, 0, 0, 0, 130, 85, 65]
      (by decide) (by decide)
  · have h := claim_C5.2 devW true 0 3 [0, 0, 3] ⟨2024, 3, 15, 10, 30, 0⟩
      (by decide) (by decide) (by decide) (fun _ => rfl)
      (fun i hi => by
        interval_cases i
        · exact ⟨[0, 24, 3, 15, 11, 0, 0, 0, 0, 120, 80, 60], by decide, by decide⟩
        · exact ⟨[0, 24, 13, 15, 11, 0, 0, 0, 0, 130, 85, 65], by decide, by decide⟩
        · exact ⟨[0, 24, 3, 15, 11, 0, 0, 0, 0, 120, 80, 60], by decide, by decide⟩)
    exact h.2.2 1 (by omega) [0, 24, 13, 15, 11, 0, 0, 0, 0, 130, 85, 65]
      (by decide) (by decide)

/-- C7: `clock()` issues `GCL00` and decodes payload bytes 1..6 as year
offset, month, day, hour, minute, second; the returned timestamp's year is
2000 plus the year offset, and out-of-range fields make the call fail with
a propagating `ValueError`. -/
theorem claim_C7 : ∀ (dev : List Nat → Option (List Nat)) (p : List Nat),
    dev GCL00 = some p → 7 ≤ p.length →
    (datetimeValid (payloadFields p) = true →
       clock dev = .ok (payloadFields p) ∧
       (payloadFields p).year = 2000 + p.getD 1 0) ∧
    (datetimeValid (payloadFields p) = false →
       clock dev = .error .valueError) := by
  intro dev p hp hlen
  constructor
  · intro hv
    refine ⟨?_, rfl⟩
    simp only [clock, hp]
    rw [if_neg (by omega)]
    simp [mkDatetime, hv]
  · intro hv
    simp only [clock, hp]
    rw [if_neg (by omega)]
    simp [mkDatetime, hv]

/-- Witness for C7: a clock payload with year offset 24, month 3, day 15
yields the year-2024 timestamp 2024-03-15 10:30:00. -/
theorem claim_C7_witness :
    clock devW = .ok ⟨2024, 3, 15, 10, 30, 0⟩ ∧
    (2024 : Nat) = 2000 + 24 := by
  have h := (claim_C7 devW [0, 24, 3, 15, 10, 30, 0] (by decide) (by decide)).1 (by decide)
  exact ⟨h.1, by omega⟩

/-- C8: when `decode_response` yields no payload (`None`), `clock()` and
`count()` do not return a value: each fails by subscripting the absent
payload (a `TypeError`), not with a distinguishable clean error. -/
theorem claim_C8 : ∀ (dev : List Nat → Option (List Nat)),
    dev GCL00 = none → dev CNT00 = none →
    clock dev = .error .typeError ∧ count dev = .error .typeError := by
  intro dev hg hc
  constructor
  · unfold clock; rw [hg]
  · unfold count; rw [hc]

/-- Witness for C8: the silent device makes both calls fail with the
subscripting `TypeError`. -/
theorem claim_C8_witness :
    clock (fun _ => none) = .error .typeError ∧
    count (fun _ => none) = .error .typeError :=
  claim_C8 (fun _ => none) rfl rfl

/-!
Handshake lemmas and claims.
-/

lemma wakeupLoop_spec (reads : Nat → ReadOutcome) :
    ∀ (k i : Nat) (s : Session), ∃ (s' : Session) (m : Nat),
      wakeupLoop reads i k s = .ok s' ∧ m ≤ k ∧
      s'.writes = s.writes ++ (List.replicate m [zeroPacket, zeroPacket]).flatten ∧
      s'.readCount = s.readCount + m ∧
      ((∀ j, j < k → truthy (reads (i + j)) = false) → m = k ∧ s'.active = s.active) ∧
      (∀ j, j < k → truthy (reads (i + j)) = true →
         (∀ l, l < j → truthy (reads (i + l)) = false) → m = j + 1 ∧ s'.active = some true) := by
  intro k
  induction k with
  | zero =>
    intro i s
    exact ⟨s, 0, rfl, Nat.le_refl 0, by simp, rfl, fun _ => ⟨rfl, rfl⟩,
      fun j hj => absurd hj (Nat.not_lt_zero j)⟩
  | succ k ih =>
    intro i s
    cases hri : reads i with
    | err =>
      obtain ⟨s', m, heq, hm, hw, hr, hall, hfirst⟩ := ih (i + 1) (bumpRead (sendZeros s))
      refine ⟨s', m + 1, ?_, by omega, ?_, ?_, ?_, ?_⟩
      · simp only [wakeupLoop, hri]; exact heq
      · rw [hw]
        simp [bumpRead, sendZeros, List.replicate_succ, List.append_assoc]
      · rw [hr]
        simp [bumpRead, sendZeros]; omega
      · intro h
        have h' : ∀ j, j < k → truthy (reads (i + 1 + j)) = false := by
          intro j hj
          have := h (j + 1) (by omega)
          rwa [show i + (j + 1) = i + 1 + j by omega] at this
        obtain ⟨hmk, hact⟩ := hall h'
        exact ⟨by omega, hact⟩
      · intro j hj htr hprev
        cases j with
        | zero =>
          rw [Nat.add_zero, hri] at htr
          exact absurd htr (by simp [truthy])
        | succ j =>
          have htr' : truthy (reads (i + 1 + j)) = true := by
            rwa [show i + (j + 1) = i + 1 + j by omega] at htr
          have hprev' : ∀ l, l < j → truthy (reads (i + 1 + l)) = false := by
            intro l hl
            have := hprev (l + 1) (by omega)
            rwa [show i + (l + 1) = i + 1 + l by omega] at this
          obtain ⟨hmj, hact⟩ := hfirst j (by omega) htr' hprev'
          exact ⟨by omega, hact⟩
    | ok r =>
      cases r with
      | none =>
        obtain ⟨s', m, heq, hm, hw, hr, hall, hfirst⟩ := ih (i + 1) (bumpRead (sendZeros s))
        refine ⟨s', m + 1, ?_, by omega, ?_, ?_, ?_, ?_⟩
        · simp only [wakeupLoop, hri]; exact heq
        · rw [hw]
          simp [bumpRead, sendZeros, List.replicate_succ, List.append_assoc]
        · rw [hr]
          simp [bumpRead, sendZeros]; omega
        · intro h
          have h' : ∀ j, j < k → truthy (reads (i + 1 + j)) = false := by
            intro j hj
            have := h (j + 1) (by omega)
            rwa [show i + (j + 1) = i + 1 + j by omega] at this
          obtain ⟨hmk, hact⟩ := hall h'
          exact ⟨by omega, hact⟩
        · intro j hj htr hprev
          cases j with
          | zero =>
            rw [Nat.add_zero, hri] at htr
            exact absurd htr (by simp [truthy])
          | succ j =>
            have htr' : truthy (reads (i + 1 + j)) = true := by
              rwa [show i + (j + 1) = i + 1 + j by omega] at htr
            have hprev' : ∀ l, l < j → truthy (reads (i + 1 + l)) = false := by
              intro l hl
              have := hprev (l + 1) (by omega)
              rwa [show i + (l + 1) = i + 1 + l by omega] at this
            obtain ⟨hmj, hact⟩ := hfirst j (by omega) htr' hprev'
            exact ⟨by omega, hact⟩
      | some p =>
        cases p with
        | nil =>
          obtain ⟨s', m, heq, hm, hw, hr, hall, hfirst⟩ := ih (i + 1) (bumpRead (sendZeros s))
          refine ⟨s', m + 1, ?_, by omega, ?_, ?_, ?_, ?_⟩
          · simp only [wakeupLoop, hri]; exact heq
          · rw [hw]
            simp [bumpRead, sendZeros, List.replicate_succ, List.append_assoc]
          · rw [hr]
            simp [bumpRead, sendZeros]; omega
          · intro h
            have h' : ∀ j, j < k → truthy (reads (i + 1 + j)) = false := by
              intro j hj
              have := h (j + 1) (by omega)
              rwa [show i + (j + 1) = i + 1 + j by omega] at this
            obtain ⟨hmk, hact⟩ := hall h'
            exact ⟨by omega, hact⟩
          · intro j hj htr hprev
            cases j with
            | zero =>
              rw [Nat.add_zero, hri] at htr
              exact absurd htr (by simp [truthy])
            | succ j =>
              have htr' : truthy (reads (i + 1 + j)) = true := by
                rwa [show i + (j + 1) = i + 1 + j by omega] at htr
              have hprev' : ∀ l, l < j → truthy (reads (i + 1 + l)) = false := by
                intro l hl
                have := hprev (l + 1) (by omega)
                rwa [show i + (l + 1) = i + 1 + l by omega] at this
              obtain ⟨hmj, hact⟩ := hfirst j (by omega) htr' hprev'
              exact ⟨by omega, hact⟩
        | cons b t =>
          refine ⟨{ bumpRead (sendZeros s) with active := some true }, 1, ?_, by omega,
            ?_, ?_, ?_, ?_⟩
          · simp only [wakeupLoop, hri]
          · simp [bumpRead, sendZeros]
          · simp [bumpRead, sendZeros]
          · intro h
            have := h 0 (by omega)
            rw [Nat.add_zero, hri] at this
            exact absurd this (by simp [truthy])
          · intro j hj htr hprev
            cases j with
            | zero => exact ⟨rfl, rfl⟩
            | succ j =>
              have := hprev 0 (by omega)
              rw [Nat.add_zero, hri] at this
              exact absurd this (by simp [truthy])

lemma wakeup_isOk (drain : ReadOutcome) (reads : Nat → ReadOutcome) (s : Session) :
    ∃ s', wakeup drain reads s = .ok s' := by
  obtain ⟨s', m, heq, _⟩ := wakeupLoop_spec reads 10 0 (bumpRead s)
  exact ⟨s', heq⟩

lemma wakeupLoop_active (reads : Nat → ReadOutcome) :
    ∀ (k i : Nat) (s s' : Session), wakeupLoop reads i k s = .ok s' →
      s'.active = some true ∨ s'.active = s.active := by
  intro k
  induction k with
  | zero =>
    intro i s s' h
    have hs : s = s' := by simpa [wakeupLoop] using h
    right
    rw [hs]
  | succ k ih =>
    intro i s s' h
    cases hri : reads i with
    | err =>
      simp only [wakeupLoop, hri] at h
      exact ih (i + 1) (bumpRead (sendZeros s)) s' h
    | ok r =>
      cases r with
      | none =>
        simp only [wakeupLoop, hri] at h
        exact ih (i + 1) (bumpRead (sendZeros s)) s' h
      | some p =>
        cases p with
        | nil =>
          simp only [wakeupLoop, hri] at h
          exact ih (i + 1) (bumpRead (sendZeros s)) s' h
        | cons b t =>
          simp only [wakeupLoop, hri] at h
          left
          have h' := Except.ok.inj h
          rw [← h']

/-- C6: `wakeup()` performs at most 10 wake cycles after the drain read,
each cycle writing the length-prefixed 7-byte zero packet twice and making
one read attempt; it stops at the first cycle whose read returns a
non-empty response, setting `self.active = True`; and for every assignment
of read outcomes — including all reads raising the swallowed `USBError` —
it returns without raising, leaving `active` untouched when all 10 cycles
fail. -/
theorem claim_C6 : ∀ (drain : ReadOutcome) (reads : Nat → ReadOutcome) (s : Session),
    ∃ (s' : Session) (k : Nat),
      wakeup drain reads s = .ok s' ∧ k ≤ 10 ∧
      s'.writes = s.writes ++ (List.replicate k [zeroPacket, zeroPacket]).flatten ∧
      s'.readCount = s.readCount + 1 + k ∧
      ((∀ j, j < 10 → truthy (reads j) = false) → k = 10 ∧ s'.active = s.active) ∧
      (∀ j, j < 10 → truthy (reads j) = true →
         (∀ l, l < j → truthy (reads l) = false) → k = j + 1 ∧ s'.active = some true) := by
  intro drain reads s
  obtain ⟨s', m, heq, hm, hw, hr, hall, hfirst⟩ := wakeupLoop_spec reads 10 0 (bumpRead s)
  refine ⟨s', m, heq, hm, by simpa [bumpRead] using hw, ?_, ?_, ?_⟩
  · rw [hr]; simp [bumpRead]
  · intro h
    exact hall (fun j hj => by simpa using h j hj)
  · intro j hj htr hprev
    exact hfirst j hj (by simpa using htr) (fun l hl => by simpa using hprev l hl)

/-- Witness for C6: with every read raising `USBError`, `wakeup` returns
after exactly 10 cycles with 20 zero packets written, 11 read attempts,
and the `active` attribute still absent. -/
theorem claim_C6_witness :
    wakeup .err (fun _ => .err) initSession =
      .ok ⟨none, (List.replicate 10 [zeroPacket, zeroPacket]).flatten, 11⟩ := by
  obtain ⟨s', k, heq, _, hw, hr, hall, _⟩ := claim_C6 .err (fun _ => .err) initSession
  obtain ⟨hk, hact⟩ := hall (fun j hj => rfl)
  subst hk
  have hs : s' = ⟨none, (List.replicate 10 [zeroPacket, zeroPacket]).flatten, 11⟩ := by
    cases s'
    simp_all [initSession]
  rw [heq, hs]

/-- C9: `shutdown()` sets `self.active = False` and writes the encoded
`END00` command with no read of any response; and the context-manager exit
invokes `shutdown` on every exit path of the `with` block, whether the body
returned normally or raised. -/
theorem claim_C9 : ∀ (s : Session) (drain : ReadOutcome) (reads : Nat → ReadOutcome)
    (body : Session → Session × Except PyError (List Measurement)),
    (shutdown s).active = some false ∧
    (shutdown s).writes = s.writes ++ [encode END00] ∧
    (shutdown s).readCount = s.readCount ∧
    (∀ s1, wakeup drain reads s = .ok s1 →
       withSession drain reads body s = (shutdown (body s1).1, (body s1).2)) ∧
    (withSession drain reads body s).1.active = some false ∧
    ∃ w, (withSession drain reads body s).1.writes = w ++ [encode END00] := by
  intro s drain reads body
  obtain ⟨s1, h1⟩ := wakeup_isOk drain reads s
  refine ⟨rfl, rfl, rfl, ?_, ?_, ?_⟩
  · intro s2 h2
    simp only [withSession, h2]
  · simp only [withSession, h1]
    rfl
  · simp only [withSession, h1]
    exact ⟨(body s1).1.writes, rfl⟩

/-- Witness for C9: a body that raises mid-iteration still exits through
`shutdown`, leaving the session inactive with the `END00` packet written
last. -/
theorem claim_C9_witness :
    withSession .err (fun _ => .err) (fun s => (s, .error .valueError)) initSession =
      (shutdown ⟨none, (List.replicate 10 [zeroPacket, zeroPacket]).flatten, 11⟩,
       .error .valueError) ∧
    (withSession .err (fun _ => .err) (fun s => (s, .error .valueError)) initSession).1.active =
      some false := by
  have h := claim_C9 initSession .err (fun _ => .err) (fun s => (s, .error .valueError))
  refine ⟨?_, h.2.2.2.2.1⟩
  exact h.2.2.2.1 ⟨none, (List.replicate 10 [zeroPacket, zeroPacket]).flatten, 11⟩ rfl

/-- C10: the `active` attribute is assigned `True` only by a `wakeup` that
obtained a non-empty response and `False` only by `shutdown`; the
constructor leaves it unset, and a fresh session whose ten wake cycles all
fail still has no `active` attribute, so reading it fails. -/
theorem claim_C10 :
    initSession.active = none ∧
    (∀ (drain : ReadOutcome) (reads : Nat → ReadOutcome) (s' : Session),
       (∀ j, j < 10 → truthy (reads j) = false) →
       wakeup drain reads initSession = .ok s' → s'.active = none) ∧
    (∀ s : Session, (shutdown s).active = some false) ∧
    (∀ (drain : ReadOutcome) (reads : Nat → ReadOutcome) (s s' : Session),
       wakeup drain reads s = .ok s' →
       s'.active = some true ∨ s'.active = s.active) := by
  refine ⟨rfl, ?_, fun s => rfl, ?_⟩
  · intro drain reads s' hfail heq
    obtain ⟨s'', m, heq', _, _, _, hall, _⟩ := wakeupLoop_spec reads 10 0 (bumpRead initSession)
    have hs : s'' = s' := by
      have := heq'.symm.trans heq
      exact Except.ok.inj this
    obtain ⟨_, hact⟩ := hall (fun j hj => by simpa using hfail j hj)
    rw [← hs, hact]
    rfl
  · intro drain reads s s' heq
    have h := wakeupLoop_active reads 10 0 (bumpRead s) s' heq
    simpa [bumpRead] using h

/-- Witness for C10: after a fully failed wakeup from a fresh session the
`active` attribute is still absent. -/
theorem claim_C10_witness :
    (Session.mk none ((List.replicate 10 [zeroPacket, zeroPacket]).flatten) 11).active =
      none := by
  refine claim_C10.2.1 .err (fun _ => .err)
    ⟨none, (List.replicate 10 [zeroPacket, zeroPacket]).flatten, 11⟩
    (fun j hj => rfl) ?_
  rfl

end ElitePlus
